import Mathlib

/-!
Shallow embedding of the igptai-node request engine and verification of its
specification.

Embedded components:
- src/HttpClient.js: the retrying request executor (retry loop with
  exponential backoff, retryable-status detection, and the classification of
  thrown fetch errors into request_aborted / timeout / network_error).
- src/StreamParser.js: the incremental SSE stream decoder (chunk buffering,
  newline splitting, data-line extraction, per-frame JSON parsing, and the
  release-exactly-once resource discipline of its async generator).
- the IGPT orchestrator glue of the same repository: _postJson and the
  constructor defaults applied with the JS or-operator.

Platform capabilities that the source consumes (fetch, JSON.parse,
TextDecoder text production, the response body reader) are modelled as
abstract parameters: a transport function giving each attempt's outcome, a
parse function of type Str to Option, and a list of pull events for the byte
source. Chunks are modelled as text, matching the source's use of a
streaming text decoder at every pull.
-/

/-- JS source text (strings of the runtime) modelled as lists of characters. -/
abbrev Str := List Char

/-! ## HttpClient.js -/

/-- Outcome of one fetch call inside HttpClient.request: either a response
carrying its status code, or a thrown error classified by the two booleans
the catch block inspects, namely whether the error's name is AbortError and
whether the executor's own controller signal is aborted (HttpClient.js
lines 42 and 45). -/
inductive AttemptOutcome where
  | response (status : Nat)
  | fetchError (isAbortError : Bool) (isOurTimeout : Bool)

/-- Value returned by HttpClient.request: a response handle (carrying its
status) or a normalized error object with a kind string. -/
inductive ReqResult where
  | handle (status : Nat)
  | err (kind : String)

/-- Observable trace of one HttpClient.request run: the returned value, the
number of fetch attempts issued, and the list of backoff delays waited
between consecutive attempts; delays gets one entry after each non-final
attempt, so the entry at position i is the delay waited before attempt
i + 1, and attempt 0 is never preceded by a delay. -/
structure ReqTrace where
  result : ReqResult
  attempts : Nat
  delays : List Nat

/-- HttpClient.js line 33: any 5xx status, or 429, is retryable. -/
def isRetryableStatus (status : Nat) : Bool :=
  (decide (500 ≤ status) && decide (status < 600)) || decide (status = 429)

/-- The retry loop of HttpClient.request (lines 21-70), indexed by the
current attempt number and the number of attempts still allowed after it
(so remaining = retries - attempt). Each recursive step models one loop
iteration: a response that is retryable with attempts remaining, or a
non-caller-abort error with attempts remaining, waits
backoffBase * backoffFactor ^ attempt and continues; every other case
returns, exactly as in the source. -/
def requestAux (bBase bFactor : Nat) (transport : Nat → AttemptOutcome) :
    Nat → Nat → ReqTrace
  | attempt, 0 =>
    match transport attempt with
    | .response status => ⟨.handle status, 1, []⟩
    | .fetchError isAbortError isOurTimeout =>
      if isAbortError && !isOurTimeout then ⟨.err "request_aborted", 1, []⟩
      else if isAbortError && isOurTimeout then ⟨.err "timeout", 1, []⟩
      else ⟨.err "network_error", 1, []⟩
  | attempt, remaining + 1 =>
    match transport attempt with
    | .response status =>
      if isRetryableStatus status then
        ⟨(requestAux bBase bFactor transport (attempt + 1) remaining).result,
         (requestAux bBase bFactor transport (attempt + 1) remaining).attempts + 1,
         bBase * bFactor ^ attempt ::
           (requestAux bBase bFactor transport (attempt + 1) remaining).delays⟩
      else ⟨.handle status, 1, []⟩
    | .fetchError isAbortError isOurTimeout =>
      if isAbortError && !isOurTimeout then ⟨.err "request_aborted", 1, []⟩
      else
        ⟨(requestAux bBase bFactor transport (attempt + 1) remaining).result,
         (requestAux bBase bFactor transport (attempt + 1) remaining).attempts + 1,
         bBase * bFactor ^ attempt ::
           (requestAux bBase bFactor transport (attempt + 1) remaining).delays⟩

/-- HttpClient.request with the given retries, backoffBase and backoffFactor,
run against a transport that determines each attempt's outcome. -/
def request (retries bBase bFactor : Nat) (transport : Nat → AttemptOutcome) : ReqTrace :=
  requestAux bBase bFactor transport 0 retries

/-- An attempt outcome falls through to the backoff-and-retry tail of the
loop body (rather than returning) when attempts remain: a retryable status,
or any thrown error except a caller abort (AbortError with the executor's
own signal not aborted). -/
def continues : AttemptOutcome → Bool
  | .response status => isRetryableStatus status
  | .fetchError isAbortError isOurTimeout => !isAbortError || isOurTimeout

/-! ## IGPT constructor defaults and per-request timeout (StreamParser.js
source file, IGPT class: constructor lines 170-175, and HttpClient.js
lines 17-19) -/

/-- The JS expression v || d for a possibly-absent number v: undefined and 0
are falsy and give the default. -/
def jsOrNum : Option Nat → Nat → Nat
  | none, _d => _d
  | some n, _d => if n = 0 then _d else n

/-- The retry-related constructor options of IGPT; a field is none when the
caller omitted it. -/
structure IGPTOptions where
  retries : Option Nat
  backoffBase : Option Nat
  backoffFactor : Option Nat

/-- The configuration the IGPT constructor hands to new HttpClient. -/
structure HttpClientCfg where
  retries : Nat
  backoffBase : Nat
  backoffFactor : Nat
  timeout : Nat

/-- IGPT source: const DEFAULT_TIMEOUT_MS = 60_000. -/
def DEFAULT_TIMEOUT_MS : Nat := 60000

/-- IGPT constructor lines 170-175: retries, backoffBase and backoffFactor
are defaulted with the JS or-operator. -/
def mkHttpClient (o : IGPTOptions) : HttpClientCfg :=
  ⟨jsOrNum o.retries 3, jsOrNum o.backoffBase 100, jsOrNum o.backoffFactor 2,
   DEFAULT_TIMEOUT_MS⟩

/-- HttpClient.request line 19: reqTimeout = reqTimeoutOverride || this._timeout. -/
def effTimeout (reqTimeoutOverride : Option Nat) (clientTimeout : Nat) : Nat :=
  jsOrNum reqTimeoutOverride clientTimeout

/-! ## StreamParser.js -/

/-- One pull from the underlying byte source: reader.read() either resolves
with a chunk of bytes (decoded to text by the streaming TextDecoder), or
rejects. End of data is modelled by the event list running out. -/
inductive ReadEv where
  | chunk (s : Str)
  | fail

/-- An element produced by the decoder's iterator: a decoded JSON value, or
the embedded network_error object yielded when a pull fails. -/
inductive OutItem (α : Type) where
  | val (a : α)
  | netError

/-- JS String.prototype.trim. -/
def jsTrim (s : Str) : Str :=
  ((s.dropWhile Char.isWhitespace).reverse.dropWhile Char.isWhitespace).reverse

/-- JS String.prototype.startsWith: jsStartsWith p s is true when p is an
initial segment of s. -/
def jsStartsWith : Str → Str → Bool
  | [], _ => true
  | _ :: _, [] => false
  | p :: ps, c :: cs => (p == c) && jsStartsWith ps cs

/-- The literal frame marker. -/
def dataMarker : Str := "data:".toList

/-- StreamParser lines 37-39: buffer.split of the newline character with the
last element popped off; returns the complete lines in order together with
the trailing partial line that becomes the new buffer. -/
def splitNl : Str → List Str × Str
  | [] => ([], [])
  | c :: cs =>
    if c = '\n' then ([] :: (splitNl cs).1, (splitNl cs).2)
    else
      match (splitNl cs).1 with
      | [] => ([], c :: (splitNl cs).2)
      | l :: ls => ((c :: l) :: ls, (splitNl cs).2)

/-- StreamParser lines 41-53, for one complete raw line: trim it, drop it
unless it starts with data:, strip the five marker characters and trim the
remainder, drop it if empty, otherwise parse it as JSON; a parse failure
(parse returns none) yields nothing. -/
def lineVal {α : Type} (parse : Str → Option α) (raw : Str) : Option α :=
  if jsStartsWith dataMarker (jsTrim raw) then
    if jsTrim ((jsTrim raw).drop 5) = [] then none
    else parse (jsTrim ((jsTrim raw).drop 5))
  else none

/-- The values yielded, in order, for a list of complete lines. -/
def processLines {α : Type} (parse : Str → Option α) (lines : List Str) : List α :=
  lines.filterMap (lineVal parse)

/-- The full sequence of values produced by iterating the StreamParser,
starting from the given buffer, over the given pull events: a failing pull
yields the single network_error object and ends the sequence; end of data
ends it with nothing further; a chunk is appended to the buffer, the
complete lines are processed in order, and the trailing partial line is
retained as the next buffer. -/
def runDecoder {α : Type} (parse : Str → Option α) : Str → List ReadEv → List (OutItem α)
  | _, [] => []
  | _, .fail :: _ => [.netError]
  | buffer, .chunk s :: rest =>
    (processLines parse (splitNl (buffer ++ s)).1).map OutItem.val
      ++ runDecoder parse (splitNl (buffer ++ s)).2 rest

/-- Concatenation of a chunk list: the total text delivered by the source. -/
def joinChunks (cs : List Str) : Str := cs.foldr (fun a b => a ++ b) []

/-! ## StreamParser generator lifecycle (release-exactly-once)

The async generator of StreamParser is modelled as a state machine. A
suspended state records the buffer, the pull events not yet consumed, and
the values of the current chunk not yet handed to the consumer (the
generator is suspended at a yield inside the for loop over lines). closing
is the state after the final network_error value has been yielded: the next
resumption runs the break and then the finally block. finished means the
generator body has completed and its finally block (releaseLock) has run.
Each step returns the value yielded (none when iteration completed), the
next state, and the number of releaseLock calls performed during the step.
Abandoning iteration invokes the generator's return, which runs the finally
block of a not-yet-finished generator and is a no-op on a finished one. -/
inductive GenSt (α : Type) where
  | suspended (buf : Str) (evs : List ReadEv) (queue : List (OutItem α))
  | closing
  | finished

/-- Resume the generator body with an empty queue: keep pulling until a value
is yielded, the source fails (yield network_error, then closing), or the
source is done (run the finally block: one releaseLock, finished). -/
def genPump {α : Type} (parse : Str → Option α) : Str → List ReadEv →
    Option (OutItem α) × GenSt α × Nat
  | _, [] => (none, .finished, 1)
  | _, .fail :: _ => (some .netError, .closing, 0)
  | buf, .chunk s :: rest =>
    match (processLines parse (splitNl (buf ++ s)).1).map OutItem.val with
    | [] => genPump parse (splitNl (buf ++ s)).2 rest
    | q :: qs => (some q, .suspended (splitNl (buf ++ s)).2 rest qs, 0)

/-- One consumer pull (a call to next) on the generator. -/
def genStep {α : Type} (parse : Str → Option α) : GenSt α →
    Option (OutItem α) × GenSt α × Nat
  | .suspended buf evs (q :: qs) => (some q, .suspended buf evs qs, 0)
  | .suspended buf evs [] => genPump parse buf evs
  | .closing => (none, .finished, 1)
  | .finished => (none, .finished, 0)

/-- releaseLock calls performed when the consumer abandons iteration in the
given state (the generator's return runs the finally block unless the body
already finished). -/
def closeReleases {α : Type} : GenSt α → Nat
  | .finished => 0
  | _ => 1

/-- Total releaseLock calls performed during n consumer pulls from the given
state. -/
def genReleases {α : Type} (parse : Str → Option α) : GenSt α → Nat → Nat
  | _, 0 => 0
  | st, n + 1 =>
    (genStep parse st).2.2 + genReleases parse (genStep parse st).2.1 n

/-- The generator state after n consumer pulls. -/
def genState {α : Type} (parse : Str → Option α) : GenSt α → Nat → GenSt α
  | st, 0 => st
  | st, n + 1 => genState parse (genStep parse st).2.1 n

/-! ## IGPT._postJson (StreamParser.js source file, lines 224-237) -/

/-- What _postJson receives from _execute: either a response handle whose
body is some text, or the normalized error object the executor produced
(detected by its error property). -/
inductive ExecRes where
  | handle (body : Str)
  | err (kind : String)

/-- What _postJson returns: the parsed JSON value, or an error object. -/
inductive PostOut (α : Type) where
  | value (v : α)
  | err (kind : String)

/-- IGPT._postJson: pass an executor error through unchanged; otherwise parse
the body as JSON (res.json()), turning a parse failure into
invalid_json_response. -/
def postJson {α : Type} (parse : Str → Option α) : ExecRes → PostOut α
  | .err k => .err k
  | .handle body =>
    match parse body with
    | some v => .value v
    | none => .err "invalid_json_response"

/-! ## Concrete values used by examples and witnesses -/

/-- A minimal JSON value type, enough to name the decoded values of the
spec's concrete examples. -/
inductive JsonVal where
  | jnum (n : Int)
  | jstr (s : Str)
  | jobj (fields : List (Str × JsonVal))

/-- The JSON object with single field a holding 1. -/
def exValue : JsonVal := JsonVal.jobj [("a".toList, JsonVal.jnum 1)]

/-- The wire text of that object. -/
def exJson : Str := "\x7b\"a\":1\x7d".toList

/-- A concrete instantiation of the platform JSON parser: recognises exactly
the wire text of exValue, fails on everything else. -/
def exParse (s : Str) : Option JsonVal := if s = exJson then some exValue else none

/-- First half of the spec's split example chunk pair. -/
def exChunk1 : Str := "data: \x7b\"a".toList

/-- Second half of the spec's split example chunk pair. -/
def exChunk2 : Str := "\":1\x7d\n\n".toList

/-- A complete data line carrying exJson. -/
def exDataLine : Str := "data: \x7b\"a\":1\x7d".toList

/-- A chunk with a malformed data line followed by a valid frame. -/
def exBadChunk : Str := "data: not-json\ndata: \x7b\"a\":1\x7d\n".toList

/-- Witness transport for C1: every attempt completes with status 500. -/
def stC1 : Nat → Nat := fun _ => 500

/-- The same transport as attempt outcomes. -/
def twC1 : Nat → AttemptOutcome := fun i => AttemptOutcome.response (stC1 i)

/-- Witness transport for C2: attempt 0 gets a 500, attempt 1 is aborted by
the caller. -/
def twC2 : Nat → AttemptOutcome :=
  fun j => if j = 0 then AttemptOutcome.response 500
           else AttemptOutcome.fetchError true false

/-- Witness transport for C3: every attempt hits the executor's deadline. -/
def twC3 : Nat → AttemptOutcome := fun _ => AttemptOutcome.fetchError true true

/-- Witness transport for C4: every attempt completes with status 404. -/
def twC4a : Nat → AttemptOutcome := fun _ => AttemptOutcome.response 404

/-- Witness transport for C4: every attempt completes with status 503. -/
def twC4b : Nat → AttemptOutcome := fun _ => AttemptOutcome.response 503

/-- Witness options for C10: retries and backoffBase explicitly 0,
backoffFactor omitted. -/
def optC10 : IGPTOptions := ⟨some 0, some 0, none⟩

/-! ## Helper lemmas: the retry loop -/

/-- If the current attempt's outcome falls through, one loop iteration
appends this attempt's backoff delay and recurses at the next attempt. -/
theorem requestAux_step (bB bF : Nat) (t : Nat → AttemptOutcome)
    (attempt remaining : Nat) (h : continues (t attempt) = true) :
    requestAux bB bF t attempt (remaining + 1) =
      ⟨(requestAux bB bF t (attempt + 1) remaining).result,
       (requestAux bB bF t (attempt + 1) remaining).attempts + 1,
       bB * bF ^ attempt :: (requestAux bB bF t (attempt + 1) remaining).delays⟩ := by
  cases ht : t attempt with
  | response status =>
    have hr : isRetryableStatus status = true := by
      rw [ht] at h; simpa [continues] using h
    simp [requestAux, ht, hr]
  | fetchError a o =>
    have hao : (a && !o) = false := by
      rw [ht] at h
      simp [continues] at h
      cases a <;> cases o <;> simp_all
    simp [requestAux, ht, hao]

/-- Head-and-tail form of the backoff delay schedule. -/
theorem backoff_delays_cons (bB bF attempt k : Nat) :
    (List.range (k + 1)).map (fun i => bB * bF ^ (attempt + i)) =
      bB * bF ^ attempt :: (List.range k).map (fun i => bB * bF ^ (attempt + 1 + i)) := by
  rw [List.range_succ_eq_map, List.map_cons, List.map_map]
  have h1 : attempt + 0 = attempt := by omega
  have h2 : ((fun i => bB * bF ^ (attempt + i)) ∘ Nat.succ) =
      fun i => bB * bF ^ (attempt + 1 + i) := by
    funext i
    have e : attempt + Nat.succ i = attempt + 1 + i := by omega
    simp [Function.comp, e]
  rw [h1, h2]

/-- If the outcomes of the first k attempts starting at the current one all
fall through, the loop runs those k iterations, waiting the scheduled
backoff delay after each, and then behaves as the loop started at
attempt + k. -/
theorem requestAux_reach (bB bF : Nat) (t : Nat → AttemptOutcome) :
    ∀ (k attempt remaining : Nat), k ≤ remaining →
      (∀ j, j < k → continues (t (attempt + j)) = true) →
      requestAux bB bF t attempt remaining =
        ⟨(requestAux bB bF t (attempt + k) (remaining - k)).result,
         (requestAux bB bF t (attempt + k) (remaining - k)).attempts + k,
         (List.range k).map (fun i => bB * bF ^ (attempt + i))
           ++ (requestAux bB bF t (attempt + k) (remaining - k)).delays⟩ := by
  intro k
  induction k with
  | zero =>
    intro attempt remaining _ _
    simp
  | succ k ih =>
    intro attempt remaining hk hcont
    obtain ⟨r, rfl⟩ : ∃ r, remaining = r + 1 := ⟨remaining - 1, by omega⟩
    have h0 : continues (t attempt) = true := by
      have := hcont 0 (by omega)
      simpa using this
    rw [requestAux_step bB bF t attempt r h0]
    rw [ih (attempt + 1) r (by omega) (fun j hj => by
      have := hcont (j + 1) (by omega)
      have e : attempt + (j + 1) = attempt + 1 + j := by omega
      rwa [e] at this)]
    have e1 : attempt + 1 + k = attempt + (k + 1) := by omega
    have e2 : r - k = r + 1 - (k + 1) := by omega
    rw [e1, e2, backoff_delays_cons]
    simp [ReqTrace.mk.injEq]
    omega

/-- A caller abort returns immediately whatever the remaining budget. -/
theorem requestAux_abort (bB bF : Nat) (t : Nat → AttemptOutcome)
    (attempt remaining : Nat) (h : t attempt = AttemptOutcome.fetchError true false) :
    requestAux bB bF t attempt remaining = ⟨ReqResult.err "request_aborted", 1, []⟩ := by
  cases remaining <;> simp [requestAux, h]

/-- On the final attempt a response is returned as a handle. -/
theorem requestAux_last_response (bB bF : Nat) (t : Nat → AttemptOutcome)
    (attempt s : Nat) (h : t attempt = AttemptOutcome.response s) :
    requestAux bB bF t attempt 0 = ⟨ReqResult.handle s, 1, []⟩ := by
  simp [requestAux, h]

/-- On the final attempt the executor's own deadline yields timeout. -/
theorem requestAux_last_timeout (bB bF : Nat) (t : Nat → AttemptOutcome)
    (attempt : Nat) (h : t attempt = AttemptOutcome.fetchError true true) :
    requestAux bB bF t attempt 0 = ⟨ReqResult.err "timeout", 1, []⟩ := by
  simp [requestAux, h]

/-- Every run of the loop issues at least one attempt. -/
theorem requestAux_attempts_pos (bB bF : Nat) (t : Nat → AttemptOutcome)
    (attempt remaining : Nat) :
    1 ≤ (requestAux bB bF t attempt remaining).attempts := by
  cases remaining with
  | zero =>
    cases h : t attempt with
    | response status => simp [requestAux, h]
    | fetchError a o =>
      by_cases h1 : (a && !o) = true
      · simp [requestAux, h, h1]
      · by_cases h2 : (a && o) = true <;> simp [requestAux, h, h1, h2]
  | succ r =>
    cases h : t attempt with
    | response status =>
      by_cases h1 : isRetryableStatus status = true
      · simp [requestAux, h, h1]
      · simp [requestAux, h, h1]
    | fetchError a o =>
      by_cases h1 : (a && !o) = true
      · simp [requestAux, h, h1]
      · simp [requestAux, h, h1]

/-- Position lookup in the delay schedule. -/
theorem range_map_getElem (f : Nat → Nat) (n i : Nat) (h : i < n) :
    ((List.range n).map f)[i]? = some (f i) := by
  have hlen : i < ((List.range n).map f).length := by simpa using h
  rw [List.getElem?_eq_getElem hlen]
  simp

/-! ## Claims C1-C4: the retrying request executor -/

/-- Claim C1: for every RetryPolicy with maxRetries = n and every request
whose transport always completes with a retryable status (any 5xx or 429),
request issues exactly n + 1 attempts, attempt 0 has no preceding delay
(the delay list has exactly n entries, one after each of attempts
0 .. n - 1), and the delay waited before each attempt k with k ≥ 1 equals
backoffBase * backoffFactor ^ (k - 1). -/
theorem claim_C1 (n bB bF : Nat) (st : Nat → Nat)
    (h : ∀ i, isRetryableStatus (st i) = true) :
    request n bB bF (fun i => AttemptOutcome.response (st i)) =
      ⟨ReqResult.handle (st n), n + 1, (List.range n).map (fun k => bB * bF ^ k)⟩
    ∧ ∀ k, 1 ≤ k → k ≤ n →
        (request n bB bF (fun i => AttemptOutcome.response (st i))).delays[k - 1]? =
          some (bB * bF ^ (k - 1)) := by
  have hmain : request n bB bF (fun i => AttemptOutcome.response (st i)) =
      ⟨ReqResult.handle (st n), n + 1, (List.range n).map (fun k => bB * bF ^ k)⟩ := by
    unfold request
    rw [requestAux_reach bB bF _ n 0 n (Nat.le_refl n)
      (fun j hj => by simpa [continues] using h (0 + j))]
    rw [Nat.sub_self, Nat.zero_add,
      requestAux_last_response bB bF _ n (st n) rfl]
    simp [ReqTrace.mk.injEq]
    omega
  refine ⟨hmain, fun k h1 hk => ?_⟩
  rw [hmain]
  exact range_map_getElem (fun i => bB * bF ^ i) n (k - 1) (by omega)

/-- Witness for C1 at n = 2, backoffBase = 100, backoffFactor = 2, transport
always 500: three attempts, delays 100 then 200, final handle returned. -/
theorem claim_C1_witness :
    request 2 100 2 twC1 = ⟨ReqResult.handle 500, 3, [100, 200]⟩ :=
  ((claim_C1 2 100 2 stC1 (fun _ => rfl)).1).trans (by rfl)

/-- Claim C2: whenever the run reaches attempt k (every earlier attempt fell
through to a retry) and during attempt k the caller's own cancellation
fires (an AbortError while the executor's own signal is not aborted),
request returns the request_aborted error immediately: exactly k + 1
attempts are issued regardless of the remaining budget, and no backoff
delay follows attempt k. -/
theorem claim_C2 (n bB bF k : Nat) (t : Nat → AttemptOutcome) (hk : k ≤ n)
    (hreach : ∀ j, j < k → continues (t j) = true)
    (habort : t k = AttemptOutcome.fetchError true false) :
    request n bB bF t =
      ⟨ReqResult.err "request_aborted", k + 1,
       (List.range k).map (fun i => bB * bF ^ i)⟩ := by
  unfold request
  rw [requestAux_reach bB bF t k 0 n hk
    (fun j hj => by simpa using hreach j hj)]
  rw [Nat.zero_add, requestAux_abort bB bF t k (n - k) habort]
  simp [ReqTrace.mk.injEq]
  omega

/-- Witness for C2: retries = 3, a 500 on attempt 0, caller abort on
attempt 1: two attempts, one delay, request_aborted. -/
theorem claim_C2_witness :
    request 3 100 2 twC2 = ⟨ReqResult.err "request_aborted", 2, [100]⟩ := by
  have h := claim_C2 3 100 2 1 twC2 (by omega)
    (fun j hj => by
      have : j = 0 := by omega
      subst this
      rfl)
    rfl
  simpa using h

/-- Claim C3: first part: if the executor's own per-attempt deadline expires
on the final attempt (attempt index = maxRetries, with all earlier attempts
having fallen through), request returns the timeout error. Second part: if
it expires on a non-final attempt k, the operation does not return there
but proceeds to the next attempt: at least k + 2 attempts are issued. -/
theorem claim_C3 (n bB bF : Nat) (t : Nat → AttemptOutcome) :
    ((∀ j, j < n → continues (t j) = true) →
      t n = AttemptOutcome.fetchError true true →
      request n bB bF t =
        ⟨ReqResult.err "timeout", n + 1, (List.range n).map (fun i => bB * bF ^ i)⟩)
    ∧ (∀ k, k < n → (∀ j, j < k → continues (t j) = true) →
        t k = AttemptOutcome.fetchError true true →
        k + 2 ≤ (request n bB bF t).attempts) := by
  constructor
  · intro hreach hlast
    unfold request
    rw [requestAux_reach bB bF t n 0 n (Nat.le_refl n)
      (fun j hj => by simpa using hreach j hj)]
    rw [Nat.zero_add, Nat.sub_self, requestAux_last_timeout bB bF t n hlast]
    simp [ReqTrace.mk.injEq]
    omega
  · intro k hkn hreach hto
    unfold request
    rw [requestAux_reach bB bF t k 0 n (by omega)
      (fun j hj => by simpa using hreach j hj)]
    rw [Nat.zero_add]
    obtain ⟨m, hm⟩ : ∃ m, n - k = m + 1 := ⟨n - k - 1, by omega⟩
    rw [hm]
    have hcont : continues (t k) = true := by rw [hto]; rfl
    rw [requestAux_step bB bF t k m hcont]
    have := requestAux_attempts_pos bB bF t (k + 1) m
    simp
    omega

/-- Witness for C3 at retries = 1 with the deadline expiring on every
attempt: the expiry on attempt 0 triggers a retry (two attempts issued) and
the expiry on the final attempt 1 yields timeout. -/
theorem claim_C3_witness :
    request 1 100 2 twC3 = ⟨ReqResult.err "timeout", 2, [100]⟩
    ∧ 2 ≤ (request 1 100 2 twC3).attempts := by
  constructor
  · have h := (claim_C3 1 100 2 twC3).1 (fun j hj => rfl) rfl
    simpa using h
  · exact (claim_C3 1 100 2 twC3).2 0 (by omega)
      (fun j hj => absurd hj (Nat.not_lt_zero j)) rfl

/-- Claim C4: first part: a non-retryable status on attempt 0 (neither 5xx
nor 429) is returned as that response handle immediately, with exactly one
attempt and no delays, for every maxRetries. Second part: a retryable
status arising on the final attempt (all earlier attempts having fallen
through) is likewise returned as an ordinary response handle, never
converted to an error. -/
theorem claim_C4 (n bB bF : Nat) (t : Nat → AttemptOutcome) :
    (∀ s, t 0 = AttemptOutcome.response s → isRetryableStatus s = false →
      request n bB bF t = ⟨ReqResult.handle s, 1, []⟩)
    ∧ (∀ s, (∀ j, j < n → continues (t j) = true) →
        t n = AttemptOutcome.response s → isRetryableStatus s = true →
        request n bB bF t =
          ⟨ReqResult.handle s, n + 1, (List.range n).map (fun i => bB * bF ^ i)⟩) := by
  constructor
  · intro s h0 hnr
    cases n with
    | zero => simp [request, requestAux, h0]
    | succ m => simp [request, requestAux, h0, hnr]
  · intro s hreach hn _hr
    unfold request
    rw [requestAux_reach bB bF t n 0 n (Nat.le_refl n)
      (fun j hj => by simpa using hreach j hj)]
    rw [Nat.zero_add, Nat.sub_self, requestAux_last_response bB bF t n s hn]
    simp [ReqTrace.mk.injEq]
    omega

/-- Witness for C4: a 404 on attempt 0 is returned at once even with
maxRetries = 5, and with maxRetries = 2 a transport always answering 503
gets its final 503 back as a handle after three attempts. -/
theorem claim_C4_witness :
    request 5 100 2 twC4a = ⟨ReqResult.handle 404, 1, []⟩
    ∧ request 2 100 2 twC4b = ⟨ReqResult.handle 503, 3, [100, 200]⟩ := by
  constructor
  · exact (claim_C4 5 100 2 twC4a).1 404 rfl rfl
  · have h := (claim_C4 2 100 2 twC4b).2 503 (fun j hj => rfl) rfl rfl
    simpa using h

/-! ## Helper lemmas: the stream decoder -/

/-- Splitting a concatenation: the complete lines of x ++ y are the complete
lines of x followed by the complete lines of x's trailing partial line glued
onto y, and the trailing partial line of the whole is that of the glued
tail. -/
theorem splitNl_append (x : Str) : ∀ y : Str,
    splitNl (x ++ y) =
      ((splitNl x).1 ++ (splitNl ((splitNl x).2 ++ y)).1,
       (splitNl ((splitNl x).2 ++ y)).2) := by
  induction x with
  | nil => intro y; simp [splitNl]
  | cons c cs ih =>
    intro y
    by_cases hc : c = '\n'
    · subst hc
      simp [splitNl, ih y]
    · cases h1 : (splitNl cs).1 with
      | nil =>
        cases h2 : (splitNl ((splitNl cs).2 ++ y)).1 with
        | nil => simp [splitNl, hc, ih y, h1, h2]
        | cons m ms => simp [splitNl, hc, ih y, h1, h2]
      | cons m ms =>
        simp [splitNl, hc, ih y, h1]

/-- The trailing partial line never contains a newline: splitting it again
yields no complete line. -/
theorem splitNl_trail (s : Str) : splitNl ((splitNl s).2) = ([], (splitNl s).2) := by
  induction s with
  | nil => rfl
  | cons c cs ih =>
    by_cases hc : c = '\n'
    · subst hc
      simp [splitNl, ih]
    · cases h1 : (splitNl cs).1 with
      | nil => simp [splitNl, hc, h1, ih]
      | cons m ms => simp [splitNl, hc, h1, ih]

/-- Characterization of the decoder on a stream of successful pulls: starting
from a buffer holding no complete line, the values produced are exactly one
per parseable data line among the complete lines of buffer plus the total
delivered text, in order; the final partial line is retained (and never
emitted). In particular the output depends only on the concatenation of the
chunks, not on where they were cut. -/
theorem runDecoder_chunks {α : Type} (parse : Str → Option α) :
    ∀ (cs : List Str) (buffer : Str), (splitNl buffer).1 = [] →
      runDecoder parse buffer (cs.map ReadEv.chunk) =
        (processLines parse (splitNl (buffer ++ joinChunks cs)).1).map OutItem.val := by
  intro cs
  induction cs with
  | nil =>
    intro buffer hb
    simp [runDecoder, joinChunks, processLines, hb]
  | cons c cs ih =>
    intro buffer hb
    simp only [List.map_cons, runDecoder]
    rw [ih ((splitNl (buffer ++ c)).2) (by rw [splitNl_trail])]
    have hj : buffer ++ joinChunks (c :: cs) = (buffer ++ c) ++ joinChunks cs := by
      simp [joinChunks]
    rw [hj, splitNl_append (buffer ++ c) (joinChunks cs)]
    simp [processLines, List.filterMap_append]

/-- Characterization of the decoder when a pull fails after cs successful
chunks: the values of the text delivered so far, then exactly one
network_error, and nothing afterwards. -/
theorem runDecoder_chunks_fail {α : Type} (parse : Str → Option α) :
    ∀ (cs : List Str) (buffer : Str) (rest : List ReadEv), (splitNl buffer).1 = [] →
      runDecoder parse buffer (cs.map ReadEv.chunk ++ ReadEv.fail :: rest) =
        (processLines parse (splitNl (buffer ++ joinChunks cs)).1).map OutItem.val
          ++ [OutItem.netError] := by
  intro cs
  induction cs with
  | nil =>
    intro buffer rest hb
    simp [runDecoder, joinChunks, processLines, hb]
  | cons c cs ih =>
    intro buffer rest hb
    simp only [List.map_cons, List.cons_append, runDecoder, List.append_eq]
    rw [ih ((splitNl (buffer ++ c)).2) rest (by rw [splitNl_trail])]
    have hj : buffer ++ joinChunks (c :: cs) = (buffer ++ c) ++ joinChunks cs := by
      simp [joinChunks]
    rw [hj, splitNl_append (buffer ++ c) (joinChunks cs)]
    simp [processLines, List.filterMap_append]

/-! ## Claims C5-C8: the incremental stream decoder -/

/-- Claim C5: for every byte stream and every way of splitting it into
chunks, the decoder yields the same sequence of decoded values in the order
their lines appeared: exactly one value per complete parseable data line of
the concatenated text (never duplicated, never dropped), with the trailing
unterminated fragment retained in the buffer and completed by later chunks
(the right-hand side depends only on the concatenation joinChunks cs, so
any two chunkings of the same bytes produce identical output). In
particular the bytes of the spec's example, split as exChunk1 then
exChunk2, yield exactly the one value for the object with field a = 1. -/
theorem claim_C5 :
    (∀ (α : Type) (parse : Str → Option α) (cs : List Str),
        runDecoder parse [] (cs.map ReadEv.chunk) =
          (processLines parse (splitNl (joinChunks cs)).1).map OutItem.val)
    ∧ runDecoder exParse [] [ReadEv.chunk exChunk1, ReadEv.chunk exChunk2] =
        [OutItem.val exValue] := by
  constructor
  · intro α parse cs
    have h := runDecoder_chunks parse cs [] rfl
    simpa using h
  · rfl

/-- Claim C6: if a pull from the byte source raises after the decoder
already yielded the frames of the chunks received so far, the sequence
yields those prior frames unchanged, then exactly one network_error value
as its final element, and then terminates (whatever events would have
followed the failing pull are never consumed); the raw failure is never
propagated, the decoder being a total function into values. -/
theorem claim_C6 (α : Type) (parse : Str → Option α) (cs : List Str)
    (rest : List ReadEv) :
    runDecoder parse [] (cs.map ReadEv.chunk ++ ReadEv.fail :: rest) =
      (processLines parse (splitNl (joinChunks cs)).1).map OutItem.val
        ++ [OutItem.netError] := by
  have h := runDecoder_chunks_fail parse cs [] rest rfl
  simpa using h

/-- Pumping the generator with an empty queue performs exactly one release
counting the one owed on the resulting state. -/
theorem genPump_releases {α : Type} (parse : Str → Option α) :
    ∀ (evs : List ReadEv) (buf : Str),
      (genPump parse buf evs).2.2 + closeReleases (genPump parse buf evs).2.1 = 1 := by
  intro evs
  induction evs with
  | nil => intro buf; rfl
  | cons e rest ih =>
    intro buf
    cases e with
    | fail => rfl
    | chunk s =>
      cases h : (processLines parse (splitNl (buf ++ s)).1).map OutItem.val with
      | nil => simpa [genPump, h] using ih ((splitNl (buf ++ s)).2)
      | cons q qs => simp [genPump, h, closeReleases]

/-- One consumer pull preserves the releases-still-owed accounting. -/
theorem genStep_releases {α : Type} (parse : Str → Option α) (st : GenSt α) :
    (genStep parse st).2.2 + closeReleases (genStep parse st).2.1 = closeReleases st := by
  cases st with
  | suspended buf evs queue =>
    cases queue with
    | nil => simpa [genStep, closeReleases] using genPump_releases parse evs buf
    | cons q qs => rfl
  | closing => rfl
  | finished => rfl

/-- Releases performed during n pulls plus releases owed at the state
reached equal the releases owed at the start. -/
theorem genReleases_inv {α : Type} (parse : Str → Option α) :
    ∀ (n : Nat) (st : GenSt α),
      genReleases parse st n + closeReleases (genState parse st n) = closeReleases st := by
  intro n
  induction n with
  | zero => intro st; simp [genReleases, genState]
  | succ n ih =>
    intro st
    have h1 := ih (genStep parse st).2.1
    have h2 := genStep_releases parse st
    simp only [genReleases, genState]
    omega

/-- Claim C7: over every stream lifecycle the byte source is released
exactly once: for every event list and every number k of consumer pulls,
the releaseLock calls performed during those pulls plus the ones performed
if the consumer then abandons iteration total exactly one - covering normal
end of data (the final pull releases, abandoning afterwards is a no-op),
termination through the embedded network_error value, and early
abandonment at any point; line splitting and parsing are total here, and in
the source the same finally block covers them. -/
theorem claim_C7 (α : Type) (parse : Str → Option α) (evs : List ReadEv) (k : Nat) :
    genReleases parse (GenSt.suspended ([] : Str) evs ([] : List (OutItem α))) k
      + closeReleases (genState parse (GenSt.suspended [] evs []) k) = 1 := by
  have h := genReleases_inv parse k (GenSt.suspended ([] : Str) evs ([] : List (OutItem α)))
  simpa [closeReleases] using h

/-- Claim C8: a complete line that is not a frame - one not beginning with
the data marker after trimming, one whose marker remainder trims to
nothing, or one whose remainder fails to parse as JSON - is silently
discarded: the processed values of any line sequence containing it are
exactly those of the sequence without it, so it yields no value, does not
terminate the stream, and every subsequent valid frame still decodes. In
particular the decoder run on a chunk carrying a data line with unparseable
remainder followed by a valid frame yields exactly the valid frame's
value. -/
theorem claim_C8 :
    (∀ (α : Type) (parse : Str → Option α) (pre post : List Str) (bad : Str),
        (jsStartsWith dataMarker (jsTrim bad) = false
          ∨ jsTrim ((jsTrim bad).drop 5) = []
          ∨ parse (jsTrim ((jsTrim bad).drop 5)) = none) →
        processLines parse (pre ++ bad :: post) = processLines parse (pre ++ post))
    ∧ runDecoder exParse [] [ReadEv.chunk exBadChunk] = [OutItem.val exValue] := by
  constructor
  · intro α parse pre post bad hbad
    have hnone : lineVal parse bad = none := by
      unfold lineVal
      rcases hbad with h | h | h
      · simp [h]
      · simp [h]
      · by_cases hs : jsStartsWith dataMarker (jsTrim bad) = true
        · by_cases he : jsTrim ((jsTrim bad).drop 5) = []
          · simp [hs, he]
          · simp [hs, he, h]
        · simp [hs]
    simp [processLines, List.filterMap_append, List.filterMap_cons, hnone]
  · rfl

/-- Witness for C8: the line data: not-json is dropped (its remainder is not
JSON to the concrete parser) while the following valid data line still
yields its value. -/
theorem claim_C8_witness :
    processLines exParse ([] ++ "data: not-json".toList :: [exDataLine]) =
      processLines exParse ([] ++ [exDataLine]) :=
  claim_C8.1 JsonVal exParse [] [exDataLine] "data: not-json".toList
    (Or.inr (Or.inr rfl))

/-! ## Claims C9-C10: orchestrator boundary and constructor defaults -/

/-- Claim C9: for a non-streaming call, a successful executor response has
its body parsed as JSON and the parsed value returned; a body that fails to
parse returns the invalid_json_response error; and an executor error is
passed through unchanged, no parse being attempted (the result is the very
error kind, whatever the parser would say). -/
theorem claim_C9 :
    (∀ (α : Type) (parse : Str → Option α) (body : Str) (v : α),
        parse body = some v → postJson parse (ExecRes.handle body) = PostOut.value v)
    ∧ (∀ (α : Type) (parse : Str → Option α) (body : Str),
        parse body = none →
        postJson parse (ExecRes.handle body) = PostOut.err "invalid_json_response")
    ∧ (∀ (α : Type) (parse : Str → Option α) (kind : String),
        postJson parse (ExecRes.err kind) = PostOut.err kind) := by
  refine ⟨?_, ?_, ?_⟩
  · intro α parse body v h
    simp [postJson, h]
  · intro α parse body h
    simp [postJson, h]
  · intro α parse kind
    rfl

/-- Witness for C9: the concrete parser succeeds on exJson and yields its
value, and fails on another body yielding invalid_json_response. -/
theorem claim_C9_witness :
    postJson exParse (ExecRes.handle exJson) = PostOut.value exValue
    ∧ postJson exParse (ExecRes.handle "nope".toList) =
        PostOut.err "invalid_json_response" :=
  ⟨claim_C9.1 JsonVal exParse exJson exValue rfl,
   claim_C9.2.1 JsonVal exParse "nope".toList rfl⟩

/-- Claim C10: a constructor options object whose retries, backoffBase or
backoffFactor is 0 (or absent - the falsy cases for a number option) gets
the defaults 3, 100 and 2 silently substituted; consequently no caller can
configure zero retries; and the executor treats a per-request timeout
override of 0 (or an absent one) as missing, falling back to the client
timeout. -/
theorem claim_C10 :
    (∀ o : IGPTOptions, o.retries = some 0 ∨ o.retries = none →
      (mkHttpClient o).retries = 3)
    ∧ (∀ o : IGPTOptions, o.backoffBase = some 0 ∨ o.backoffBase = none →
        (mkHttpClient o).backoffBase = 100)
    ∧ (∀ o : IGPTOptions, o.backoffFactor = some 0 ∨ o.backoffFactor = none →
        (mkHttpClient o).backoffFactor = 2)
    ∧ (∀ o : IGPTOptions, (mkHttpClient o).retries ≠ 0)
    ∧ (∀ clientTimeout : Nat,
        effTimeout (some 0) clientTimeout = clientTimeout
          ∧ effTimeout none clientTimeout = clientTimeout) := by
  refine ⟨?_, ?_, ?_, ?_, ?_⟩
  · intro o h
    rcases h with h | h <;> simp [mkHttpClient, jsOrNum, h]
  · intro o h
    rcases h with h | h <;> simp [mkHttpClient, jsOrNum, h]
  · intro o h
    rcases h with h | h <;> simp [mkHttpClient, jsOrNum, h]
  · intro o
    cases h : o.retries with
    | none => simp [mkHttpClient, jsOrNum, h]
    | some n =>
      by_cases hn : n = 0 <;> simp [mkHttpClient, jsOrNum, h, hn]
  · intro clientTimeout
    exact ⟨rfl, rfl⟩

/-- Witness for C10: retries = 0 and backoffBase = 0 become 3 and 100, the
omitted backoffFactor becomes 2, and a zero override falls back to the
client timeout. -/
theorem claim_C10_witness :
    (mkHttpClient optC10).retries = 3
    ∧ (mkHttpClient optC10).backoffBase = 100
    ∧ (mkHttpClient optC10).backoffFactor = 2
    ∧ effTimeout (some 0) 60000 = 60000 :=
  ⟨claim_C10.1 optC10 (Or.inl rfl),
   claim_C10.2.1 optC10 (Or.inl rfl),
   claim_C10.2.2.1 optC10 (Or.inr rfl),
   (claim_C10.2.2.2.2 60000).1⟩
